import Mathlib

/-!
Verification of the lazy graph-construction pipeline of the Adjacent
repository: edge identity (`canonical_pair`, `compute_edge_id`), the
confidence model (`confidence_from_anchors`), the edge materializer
(`EdgeMaterializer.materialize`), the fast-path query orchestrator
(`QueryService.query`) and the slow-path worker (`infer_edges`).

The Python source is embedded shallowly: pure functions become Lean
functions, Python `float` arithmetic is modelled exactly over `ℚ`
(the one rounding tie that occurs, `round(617.5)` at `n = 1`, resolves
to 618 in CPython as well, so the `ℚ` model agrees with the source on
every reachable value), machine-independent Python `int`s become `ℤ`/`ℕ`,
dictionaries with optional keys become structures with `Option` fields,
exceptions become `Except`, and the external collaborators (Neo4j store,
vector index, Redis queue, LLM) become explicit environment records whose
responses are threaded through the control flow exactly as the source
consumes them.  `hashlib.sha256` is implemented in full (over `Nat`,
word arithmetic taken mod `2^32`) so that facts about `compute_edge_id`
are decided by actually hashing.
-/

namespace Adjacent

/-! ## SHA-256 (faithful model of `hashlib.sha256(...).hexdigest()`) -/

/-- Reduce to a 32-bit word. -/
def w32 (x : Nat) : Nat := x % 4294967296

/-- 32-bit addition. -/
def wadd (x y : Nat) : Nat := w32 (x + y)

/-- Bitwise complement within 32 bits (arguments are kept `< 2^32`). -/
def wnot (x : Nat) : Nat := 4294967295 - x

/-- Right-rotation of a 32-bit word by `n` places. -/
def rotr (n x : Nat) : Nat := w32 ((x >>> n) ||| (x <<< (32 - n)))

/-- The SHA-256 `Ch` function. -/
def ch (x y z : Nat) : Nat := Nat.xor (Nat.land x y) (Nat.land (wnot x) z)

/-- The SHA-256 `Maj` function. -/
def maj (x y z : Nat) : Nat :=
  Nat.xor (Nat.land x y) (Nat.xor (Nat.land x z) (Nat.land y z))

/-- The SHA-256 big Σ₀ function. -/
def bigS0 (x : Nat) : Nat := Nat.xor (rotr 2 x) (Nat.xor (rotr 13 x) (rotr 22 x))

/-- The SHA-256 big Σ₁ function. -/
def bigS1 (x : Nat) : Nat := Nat.xor (rotr 6 x) (Nat.xor (rotr 11 x) (rotr 25 x))

/-- The SHA-256 small σ₀ function. -/
def smallS0 (x : Nat) : Nat := Nat.xor (rotr 7 x) (Nat.xor (rotr 18 x) (x >>> 3))

/-- The SHA-256 small σ₁ function. -/
def smallS1 (x : Nat) : Nat := Nat.xor (rotr 17 x) (Nat.xor (rotr 19 x) (x >>> 10))

/-- The 64 SHA-256 round constants (FIPS 180-4, written in decimal). -/
def sha256K : List Nat :=
  [1116352408, 1899447441, 3049323471, 3921009573, 961987163,
   1508970993, 2453635748, 2870763221, 3624381080, 310598401,
   607225278, 1426881987, 1925078388, 2162078206, 2614888103,
   3248222580, 3835390401, 4022224774, 264347078, 604807628,
   770255983, 1249150122, 1555081692, 1996064986, 2554220882,
   2821834349, 2952996808, 3210313671, 3336571891, 3584528711,
   113926993, 338241895, 666307205, 773529912, 1294757372,
   1396182291, 1695183700, 1986661051, 2177026350, 2456956037,
   2730485921, 2820302411, 3259730800, 3345764771, 3516065817,
   3600352804, 4094571909, 275423344, 430227734, 506948616,
   659060556, 883997877, 958139571, 1322822218, 1537002063,
   1747873779, 1955562222, 2024104815, 2227730452, 2361852424,
   2428436474, 2756734187, 3204031479, 3329325298]

/-- The working state of the compression function. -/
structure Hash8 where
  a : Nat
  b : Nat
  c : Nat
  d : Nat
  e : Nat
  f : Nat
  g : Nat
  h : Nat
deriving Repr, DecidableEq

/-- The SHA-256 initial hash value (FIPS 180-4, written in decimal). -/
def sha256H0 : Hash8 :=
  ⟨1779033703, 3144134277, 1013904242, 2773480762,
   1359893119, 2600822924, 528734635, 1541459225⟩

/-- One round of the SHA-256 compression function. -/
def sha256Round (s : Hash8) (k w : Nat) : Hash8 :=
  let t1 := wadd s.h (wadd (bigS1 s.e) (wadd (ch s.e s.f s.g) (wadd k w)))
  let t2 := wadd (bigS0 s.a) (maj s.a s.b s.c)
  ⟨wadd t1 t2, s.a, s.b, s.c, wadd s.d t1, s.e, s.f, s.g⟩

/-- Extend a 16-word block to the 64-word message schedule. -/
def sha256Schedule (w16 : List Nat) : List Nat :=
  (List.range 48).foldl
    (fun w _ =>
      let n := w.length
      w ++ [wadd (wadd (smallS1 (w.getD (n - 2) 0)) (w.getD (n - 7) 0))
              (wadd (smallS0 (w.getD (n - 15) 0)) (w.getD (n - 16) 0))])
    w16

/-- Compress one 16-word block into the running hash state. -/
def sha256Compress (hs : Hash8) (block : List Nat) : Hash8 :=
  let w := sha256Schedule block
  let s := (sha256K.zip w).foldl (fun s kw => sha256Round s kw.1 kw.2) hs
  ⟨wadd hs.a s.a, wadd hs.b s.b, wadd hs.c s.c, wadd hs.d s.d,
   wadd hs.e s.e, wadd hs.f s.f, wadd hs.g s.g, wadd hs.h s.h⟩

/-- Big-endian 8-byte encoding of a natural number (the message bit length). -/
def be64 (n : Nat) : List Nat :=
  [w32 (n >>> 56) % 256, (n >>> 48) % 256, (n >>> 40) % 256, (n >>> 32) % 256,
   (n >>> 24) % 256, (n >>> 16) % 256, (n >>> 8) % 256, n % 256]

/-- SHA-256 padding: `0x80`, zeros, then the bit length, to a 64-byte boundary. -/
def sha256Pad (msg : List Nat) : List Nat :=
  let L := msg.length
  let zeros := (119 - (L % 64)) % 64
  msg ++ 0x80 :: List.replicate zeros 0 ++ be64 (8 * L)

/-- Big-endian packing of bytes into 32-bit words. -/
def bytesToWords : List Nat → List Nat
  | a :: b :: c :: d :: rest =>
      (a * 16777216 + b * 65536 + c * 256 + d) :: bytesToWords rest
  | _ => []

/-- Split a word list into 16-word blocks (the input length is a multiple
of 16 after padding). -/
def chunk16 : List Nat → List (List Nat)
  | w0 :: w1 :: w2 :: w3 :: w4 :: w5 :: w6 :: w7 ::
    w8 :: w9 :: w10 :: w11 :: w12 :: w13 :: w14 :: w15 :: rest =>
      [w0, w1, w2, w3, w4, w5, w6, w7, w8, w9, w10, w11, w12, w13, w14, w15]
        :: chunk16 rest
  | _ => []

/-- A hex digit character (lowercase, as `hexdigest` emits). -/
def hexChar (n : Nat) : Char :=
  if n < 10 then Char.ofNat (48 + n) else Char.ofNat (87 + n)

/-- The 8 lowercase hex characters of one 32-bit word. -/
def wordHex (w : Nat) : List Char :=
  (List.range 8).map (fun i => hexChar ((w >>> (28 - 4 * i)) % 16))

/-- UTF-8 encoding of one code point. -/
def utf8Encode (c : Nat) : List Nat :=
  if c < 128 then [c]
  else if c < 2048 then [192 + c / 64, 128 + c % 64]
  else if c < 65536 then [224 + c / 4096, 128 + c / 64 % 64, 128 + c % 64]
  else [240 + c / 262144, 128 + c / 4096 % 64, 128 + c / 64 % 64, 128 + c % 64]

/-- The UTF-8 bytes of a string (Python `str.encode("utf-8")`). -/
def strBytes (s : String) : List Nat :=
  (s.data.map (fun c => utf8Encode c.toNat)).flatten

/-- `hashlib.sha256(bytes).hexdigest()`: the 64-character lowercase hex
digest of a byte sequence. -/
def sha256Hex (msg : List Nat) : String :=
  let hs := (chunk16 (bytesToWords (sha256Pad msg))).foldl sha256Compress sha256H0
  String.mk (([hs.a, hs.b, hs.c, hs.d, hs.e, hs.f, hs.g, hs.h].map wordHex).flatten)

/-! ## EdgeIdentity (src/adjacent/graph/materializer.py lines 14-21) -/

/-- Lexicographic `<` on code-point sequences — exactly how CPython
compares two `str` values. -/
def pyCharsLt : List Char → List Char → Bool
  | [], [] => false
  | [], _ :: _ => true
  | _ :: _, [] => false
  | a :: as, b :: bs =>
      if a.toNat < b.toNat then true
      else if b.toNat < a.toNat then false
      else pyCharsLt as bs

/-- Python string `<`: lexicographic comparison by code point. -/
def pyStrLt (a b : String) : Bool := pyCharsLt a.data b.data

/-- Python string `<=` (total order: `a <= b` iff `not (b < a)`). -/
def pyStrLe (a b : String) : Bool := !(pyStrLt b a)

/-- `canonical_pair` from `adjacent/graph/materializer.py`:
`(a, b) if a <= b else (b, a)` on the raw strings. -/
def canonical_pair (a b : String) : String × String :=
  if pyStrLe a b then (a, b) else (b, a)

/-- `compute_edge_id` from `adjacent/graph/materializer.py`:
`"edge_" + sha256(f"{edge_type}:{a}:{b}".encode("utf-8")).hexdigest()[:16]`.
Note that the function itself does NOT canonicalize its arguments. -/
def compute_edge_id (edge_type a b : String) : String :=
  let raw := edge_type ++ ":" ++ a ++ ":" ++ b
  let digest := (sha256Hex (strBytes raw)).take 16
  "edge_" ++ digest

/-! ## Confidence model (src/adjacent/graph/materializer.py lines 24-38) -/

/-- `min` on `ℚ` in an executable form (`min_def` bridges to Mathlib's
`min`). -/
def ratMin (a b : ℚ) : ℚ := if a ≤ b then a else b

/-- Python `round(x, 3)`: rounding to 3 decimal places, over `ℚ`, in an
executable form (round half up, computed as `⌊x*1000 + 1/2⌋ / 1000` by
integer division; `round3_eq` bridges to Mathlib's `round`).  The only tie
reachable from `confidence_from_anchors` is at `n = 1` (617.5), where
CPython's float rounding also yields 618, so half-up agrees with the source
on every reachable input. -/
def round3 (x : ℚ) : ℚ :=
  (((x * 1000 + 1/2).num / ((x * 1000 + 1/2).den : ℤ) : ℤ) : ℚ) / 1000

/-- Exponentiation on `ℚ` in an executable form (`ratPow_eq` bridges to
`a ^ n`). -/
def ratPow (a : ℚ) : ℕ → ℚ
  | 0 => 1
  | n + 1 => ratPow a n * a

/-- `confidence_from_anchors` with explicit constants: for `n <= 0` returns 0,
otherwise `min(cap, round(base + (1-base) * (1 - (1-growth)**n), 3))`. -/
def confidence_from_anchors_gen (n : ℤ) (base growth cap : ℚ) : ℚ :=
  if n ≤ 0 then 0
  else ratMin cap (round3 (base + (1 - base) * (1 - ratPow (1 - growth) n.toNat)))

/-- `confidence_from_anchors` at the source's default constants
`base=0.55, growth=0.15, cap=0.95`. -/
def confidence_from_anchors (n : ℤ) : ℚ :=
  confidence_from_anchors_gen n (11/20) (3/20) (19/20)

/-! ## EdgeMaterializer (src/adjacent/graph/materializer.py lines 41-117) -/

/-- An LLM edge patch `{edge_type, from_id, to_id, notes?, edge_props?}`
(`edge_patch.json`); `edge_props` is opaque attacher-supplied metadata. -/
structure Patch where
  edge_type : String
  from_id : String
  to_id : String
  notes : Option String
  edge_props : List (String × String)
deriving Repr, DecidableEq

/-- A fully materialized edge record (`edge.json`).  Keys the Python dict may
lack (`notes` is `None`-able; the three provenance keys are set only on first
creation) are `Option` fields, `none` meaning the key is absent. -/
structure Edge where
  edge_id : String
  edge_type : String
  from_id : String
  to_id : String
  anchors_seen : List String
  confidence_0_to_1 : ℚ
  status : String
  created_at : String
  last_reinforced_at : String
  notes : Option String
  edge_props : List (String × String)
  created_kind : Option String
  created_under_anchor_id : Option String
  created_in_job_id : Option String
deriving Repr, DecidableEq

/-- Python truthiness of an `Optional[str]`: `None` and `""` are falsy. -/
def optTruthy : Option String → Bool
  | none => false
  | some s => s != ""

/-- `EdgeMaterializer.materialize`: merges a patch with the stored edge (if
any) into the next durable edge state.  `now` is the `utc_now()` timestamp,
passed explicitly (the single effect of the Python method). -/
def materialize (patch : Patch) (anchor_id : String) (existing_edge : Option Edge)
    (created_kind : Option String) (job_id : Option String) (now : String) : Edge :=
  let edge_type := patch.edge_type
  let ab := canonical_pair patch.from_id patch.to_id
  let anchors_seen :=
    match existing_edge with
    | none => [anchor_id]
    | some ex =>
        if anchor_id ∈ ex.anchors_seen then ex.anchors_seen
        else ex.anchors_seen ++ [anchor_id]
  let created_at :=
    match existing_edge with
    | none => now
    | some ex => ex.created_at
  let confidence := confidence_from_anchors (anchors_seen.length : ℤ)
  let status := if confidence ≥ 7/10 then "ACTIVE" else "PROPOSED"
  { edge_id := compute_edge_id edge_type ab.1 ab.2
    edge_type := edge_type
    from_id := ab.1
    to_id := ab.2
    anchors_seen := anchors_seen
    confidence_0_to_1 := confidence
    status := status
    created_at := created_at
    last_reinforced_at := now
    notes := patch.notes
    edge_props := patch.edge_props
    created_kind :=
      match existing_edge with
      | none => if optTruthy created_kind then created_kind else none
      | some ex => ex.created_kind
    created_under_anchor_id :=
      match existing_edge with
      | none => some anchor_id
      | some ex => ex.created_under_anchor_id
    created_in_job_id :=
      match existing_edge with
      | none => if optTruthy job_id then job_id else none
      | some ex => ex.created_in_job_id }

/-! ## Edge store state and the worker's per-patch loop body
(src/adjacent/async_inference/tasks.py lines 235-275).  The Neo4j edge
store is modelled as an association list keyed by `edge_id`, with
`get_edge` lookup and `upsert_edge` MERGE semantics. -/

/-- `Neo4jEdgeStore.get_edge`: point lookup by edge id. -/
def storeGet (st : List (String × Edge)) (edge_id : String) : Option Edge :=
  (st.find? (fun p => p.1 == edge_id)).map (fun p => p.2)

/-- `Neo4jEdgeStore.upsert_edge`: MERGE on the edge id — replace the stored
record when present, insert it otherwise. -/
def storeUpsert (st : List (String × Edge)) (e : Edge) : List (String × Edge) :=
  if (st.find? (fun p => p.1 == e.edge_id)).isSome then
    st.map (fun p => if p.1 == e.edge_id then (p.1, e) else p)
  else
    st ++ [(e.edge_id, e)]

/-- The worker's running statistics
(`edges_created` / `edges_reinforced` / `edges_noop_existing` and the
anchor-vs-candidate split of creations). -/
structure Tally where
  edges_created : ℕ
  edges_reinforced : ℕ
  edges_noop_existing : ℕ
  anchor_edges_created : ℕ
  candidate_edges_created : ℕ
deriving Repr, DecidableEq

/-- The all-zero tally the worker starts from. -/
def Tally.zero : Tally := ⟨0, 0, 0, 0, 0⟩

/-- One iteration of the worker's materialize-and-upsert loop: canonicalize,
compute the edge id, read the existing edge, classify provenance for new
edges, materialize, upsert, and update the tally exactly as the source does. -/
def processPatch (anchor_id : String) (job_id : Option String) (now : String)
    (st : List (String × Edge) × Tally) (patch : Patch) :
    List (String × Edge) × Tally :=
  let store := st.1
  let t := st.2
  let ab := canonical_pair patch.from_id patch.to_id
  let edge_id := compute_edge_id patch.edge_type ab.1 ab.2
  let existing := storeGet store edge_id
  let existing_anchors :=
    match existing with
    | none => ([] : List String)
    | some ex => ex.anchors_seen
  let created_kind :=
    match existing with
    | none =>
        if ab.1 = anchor_id ∨ ab.2 = anchor_id then some "anchor_candidate"
        else some "candidate_candidate"
    | some _ => none
  let full_edge := materialize patch anchor_id existing created_kind job_id now
  let store' := storeUpsert store full_edge
  let t' :=
    match existing with
    | some _ =>
        if anchor_id ∈ existing_anchors then
          { t with edges_noop_existing := t.edges_noop_existing + 1 }
        else
          { t with edges_reinforced := t.edges_reinforced + 1 }
    | none =>
        if ab.1 = anchor_id ∨ ab.2 = anchor_id then
          { t with edges_created := t.edges_created + 1,
                   anchor_edges_created := t.anchor_edges_created + 1 }
        else
          { t with edges_created := t.edges_created + 1,
                   candidate_edges_created := t.candidate_edges_created + 1 }
  (store', t')

/-! ## EdgeIdentity variant in src/adjacent/identity.py -/

/-- Python `str.strip()` whitespace test, for the ASCII range the ids use
(space, tab, LF, VT, FF, CR). -/
def pyIsSpace (c : Char) : Bool := c.toNat = 32 || (9 ≤ c.toNat && c.toNat ≤ 13)

/-- Python `str.strip()`: drop leading and trailing whitespace. -/
def pyStrip (s : String) : String :=
  String.mk (((s.data.dropWhile pyIsSpace).reverse.dropWhile pyIsSpace).reverse)

/-- Python `str.lower()`, for the ASCII range the ids use. -/
def pyLowerChar (c : Char) : Char :=
  if 65 ≤ c.toNat && c.toNat ≤ 90 then Char.ofNat (c.toNat + 32) else c

/-- `normalize_id` from `adjacent/identity.py`: `x.strip().lower()`. -/
def normalize_id (x : String) : String :=
  String.mk ((pyStrip x).data.map pyLowerChar)

namespace Identity

/-- `canonical_pair` from `adjacent/identity.py`: normalize both ids, then
order with strict `<` (unlike the materializer's, which orders the raw
strings with `<=`). -/
def canonical_pair (a b : String) : String × String :=
  let a' := normalize_id a
  let b' := normalize_id b
  if pyStrLt a' b' then (a', b') else (b', a')

end Identity

/-! ## Fast-path query service
(src/adjacent/async_inference/query_service.py lines 144-438 and
src/adjacent/async_inference/config.py).  The external collaborators
(Neo4j product store, counter update, edge-store reads, vector index,
Redis queue) are an explicit environment record; their responses flow
through the control flow exactly where the source consumes them. -/

/-- A product record as `fetch_product` returns it: the fields the query
path reads.  A missing or empty `embedding` key is `none` / `some []`
(both falsy in the source's `if product.get("embedding"):`). -/
structure Product where
  id : String
  description : String
  embedding : Option (List ℚ)
deriving Repr, DecidableEq

/-- One row of `get_neighbors`: candidate id plus optional edge metadata
(`n.get("edge_type")`, `n.get("confidence_0_to_1")`). -/
structure Neighbor where
  candidate_id : String
  edge_type : Option String
  confidence_0_to_1 : Option ℚ
deriving Repr, DecidableEq

/-- One row of `similarity_search`: `result["product"]["id"]` and
`result.get("score")`. -/
structure SearchRow where
  id : String
  score : Option ℚ
deriving Repr, DecidableEq

/-- One value of `get_anchor_edges_with_metadata`: the per-candidate
aggregates the reinforcement gate reads. -/
structure EdgeInfo where
  max_anchor_count : ℤ
  max_confidence_0_to_1 : ℚ
deriving Repr, DecidableEq

/-- The fields of `AsyncConfig` (config.py) that the modelled control flow
reads.  Python's `float` literal `0.70` is idealized as `7/10`. -/
structure AsyncConfig where
  openai_api_key : Option String
  allow_endpoint_reinforcement : Bool
  endpoint_reinforcement_threshold : ℤ
  endpoint_reinforcement_max_confidence : ℚ
deriving Repr, DecidableEq

/-- The dataclass defaults of the gate-relevant fields: no API key,
reinforcement enabled, threshold 5, confidence ceiling 0.70. -/
def AsyncConfig.defaults : AsyncConfig := ⟨none, true, 5, 7/10⟩

/-- The external collaborators of one `QueryService.query` call.
`incrementOk = false` models the query-counter `session.run` raising. -/
structure QueryEnv where
  fetchProduct : String → Option Product
  incrementOk : Bool
  getNeighbors : String → ℤ → List Neighbor
  computedQueryEmbedding : List ℚ
  similaritySearch : List ℚ → ℤ → List SearchRow
  anchorEdgesMeta : String → List String → List (String × EdgeInfo)
  anchorEdges : String → List String → List String
  enqueueJobId : String

/-- The exceptions the modelled fast path can raise. -/
inductive QueryError where
  | productNotFound
  | incrementFailed
  | missingDescription
deriving Repr, DecidableEq

/-- A single recommendation (query_service.py lines 28-36). -/
structure Recommendation where
  product_id : String
  edge_type : Option String
  confidence : Option ℚ
  source : String
  score : Option ℚ
deriving Repr, DecidableEq

/-- The result of a `query()` call (query_service.py lines 39-52). -/
structure QueryResult where
  anchor_id : String
  recommendations : List Recommendation
  from_graph : ℕ
  from_vector : ℕ
  inference_status : String
  job_id : Option String
deriving Repr, DecidableEq

/-- The `description` fallback inside `_get_embedding`: raises when the
product has no description, otherwise computes an embedding on demand. -/
def getEmbeddingFromText (env : QueryEnv) (product : Product) :
    Except QueryError (List ℚ) :=
  if product.description = "" then Except.error QueryError.missingDescription
  else Except.ok env.computedQueryEmbedding

/-- `QueryService._get_embedding`: stored embedding if truthy, else compute
from the description. -/
def getEmbedding (env : QueryEnv) (product : Product) :
    Except QueryError (List ℚ) :=
  match product.embedding with
  | some e => if e.isEmpty then getEmbeddingFromText env product else Except.ok e
  | none => getEmbeddingFromText env product

/-- The fast path's running state over the vector-result loop
(`recommendations`, `vector_candidates`, `existing_ids`; the Python set of
ids is a list consulted only through membership). -/
structure VecState where
  recommendations : List Recommendation
  vector_candidates : List String
  existing_ids : List String
deriving Repr, DecidableEq

/-- One iteration of the vector-result loop (query_service.py lines
274-287): append only ids that are new and only while fewer than `top_k`
recommendations exist. -/
def vectorStep (top_k : ℤ) (st : VecState) (row : SearchRow) : VecState :=
  if row.id ∉ st.existing_ids ∧ (st.recommendations.length : ℤ) < top_k then
    { recommendations :=
        st.recommendations ++ [⟨row.id, none, none, "vector", row.score⟩]
      vector_candidates := st.vector_candidates ++ [row.id]
      existing_ids := st.existing_ids ++ [row.id] }
  else st

/-- Dictionary lookup in the `get_anchor_edges_with_metadata` result. -/
def lookupMeta (l : List (String × EdgeInfo)) (k : String) : Option EdgeInfo :=
  (l.find? (fun p => p.1 == k)).map (fun p => p.2)

/-- The candidate filter (query_service.py lines 317-368): with the
reinforcement gate enabled, keep unconnected candidates and connected ones
whose anchor count and confidence are both strictly below the configured
bounds; with the gate disabled, keep only unconnected candidates. -/
def selectForInference (cfg : AsyncConfig)
    (connectedMeta : List (String × EdgeInfo)) (connectedSet : List String)
    (ids : List String) : List String :=
  if cfg.allow_endpoint_reinforcement then
    ids.filter (fun cid =>
      match lookupMeta connectedMeta cid with
      | none => true
      | some info =>
          decide (info.max_anchor_count < cfg.endpoint_reinforcement_threshold)
            && decide (info.max_confidence_0_to_1
                 < cfg.endpoint_reinforcement_max_confidence))
  else
    ids.filter (fun cid => !(connectedSet.contains cid))

/-- Step 3 of `query` (query_service.py lines 295-412): decide the
inference status and job id.  `skipped` when the caller skips or no API key
is configured; otherwise the vector-sourced candidates are filtered and a
job is enqueued only when some remain (`enqueued`); in every other case the
status keeps its initial value `complete`.  This part: the per-candidate
filtering and enqueue decision. -/
def scheduleCandidates (env : QueryEnv) (cfg : AsyncConfig)
    (product_id : String) (all_candidate_ids : List String) :
    String × Option String :=
  if !all_candidate_ids.isEmpty then
    if !(selectForInference cfg
          (env.anchorEdgesMeta product_id all_candidate_ids)
          (env.anchorEdges product_id all_candidate_ids)
          all_candidate_ids).isEmpty then
      ("enqueued", some env.enqueueJobId)
    else ("complete", none)
  else ("complete", none)

/-- The status/job decision of `scheduleInference` once the vector-sourced
candidate ids are collected. -/
def scheduleInference (env : QueryEnv) (cfg : AsyncConfig)
    (product_id : String) (skip_inference : Bool)
    (recommendations : List Recommendation) : String × Option String :=
  if !skip_inference && optTruthy cfg.openai_api_key then
    scheduleCandidates env cfg product_id
      ((recommendations.filter (fun r => r.source == "vector")).map
        (fun r => r.product_id))
  else ("skipped", none)

/-- `QueryService.query` (query_service.py lines 168-438): fetch the anchor
(raising `ValueError` when absent), increment its query counter (an
unguarded call — a raise here propagates), collect graph neighbors, fill
with vector fallback when short (over-fetching `top_k + from_graph + 1`),
then decide the inference status via `scheduleInference`. -/
def query (env : QueryEnv) (cfg : AsyncConfig) (product_id : String)
    (top_k : ℤ) (skip_inference : Bool) : Except QueryError QueryResult :=
  match env.fetchProduct product_id with
  | none => Except.error QueryError.productNotFound
  | some anchor =>
    if !env.incrementOk then Except.error QueryError.incrementFailed
    else
      let graphRecs := (env.getNeighbors product_id top_k).map
        (fun n => Recommendation.mk n.candidate_id n.edge_type
          n.confidence_0_to_1 "graph" none)
      let from_graph := graphRecs.length
      let need_more : ℤ := top_k - (graphRecs.length : ℤ)
      let init : VecState :=
        ⟨graphRecs, [], (graphRecs.map (fun r => r.product_id)) ++ [product_id]⟩
      let afterVector : Except QueryError VecState :=
        if need_more > 0 then
          (getEmbedding env anchor).map (fun emb =>
            (env.similaritySearch emb (top_k + (from_graph : ℤ) + 1)).foldl
              (vectorStep top_k) init)
        else Except.ok init
      match afterVector with
      | Except.error e => Except.error e
      | Except.ok st =>
        let enq := scheduleInference env cfg product_id skip_inference
          st.recommendations
        Except.ok ⟨product_id, st.recommendations, from_graph,
          st.vector_candidates.length, enq.1, enq.2⟩

/-! ## Slow-path worker (src/adjacent/async_inference/tasks.py lines
51-317).  `llmResult` is the single `construct_patch` call's outcome:
`Except.error` models the guarded `except Exception` branch. -/

/-- The external collaborators of one `infer_edges` job. -/
structure WorkerEnv where
  fetchProduct : String → Option Product
  fetchProducts : List String → List Product
  llmResult : Except String (List Patch)
  jobId : Option String
  now : String

deriving instance DecidableEq for Except

/-- The job's structured result dict.  Keys absent on a branch (an error
dict carries no split counts) are zero / `none` here. -/
structure WorkerResult where
  anchor_id : String
  edges_created : ℕ
  anchor_edges_created : ℕ
  candidate_edges_created : ℕ
  edges_reinforced : ℕ
  edges_noop_existing : ℕ
  error : Option String
deriving Repr, DecidableEq

/-- `infer_edges`: validate credentials, fetch anchor and candidates
(structured early returns, store untouched), call the LLM once (an error
result on failure, store untouched), otherwise run the
materialize-and-upsert loop over all patches and report the tally. -/
def infer_edges (env : WorkerEnv) (cfg : AsyncConfig) (anchor_id : String)
    (candidate_ids : List String) (store : List (String × Edge)) :
    WorkerResult × List (String × Edge) :=
  if !(optTruthy cfg.openai_api_key) then
    (⟨anchor_id, 0, 0, 0, 0, 0, some "No OpenAI API key configured"⟩, store)
  else
    match env.fetchProduct anchor_id with
    | none =>
        (⟨anchor_id, 0, 0, 0, 0, 0,
          some ("Anchor product not found: " ++ anchor_id)⟩, store)
    | some _ =>
      if (env.fetchProducts candidate_ids).isEmpty then
        (⟨anchor_id, 0, 0, 0, 0, 0, none⟩, store)
      else
        match env.llmResult with
        | Except.error e =>
            (⟨anchor_id, 0, 0, 0, 0, 0,
              some ("LLM inference failed: " ++ e)⟩, store)
        | Except.ok patches =>
            let final := patches.foldl
              (processPatch anchor_id env.jobId env.now) (store, Tally.zero)
            (⟨anchor_id, final.2.edges_created, final.2.anchor_edges_created,
              final.2.candidate_edges_created, final.2.edges_reinforced,
              final.2.edges_noop_existing, none⟩, final.1)

/-! ## Concrete collaborator environments for the closed instances -/

/-- An anchor product with a stored embedding. -/
def productP : Product := ⟨"p1", "desc", some [1]⟩

/-- A query environment whose counter increment fails while everything else
responds normally. -/
def envIncrementFail : QueryEnv :=
  { fetchProduct := fun s => if s = "p1" then some productP else none
    incrementOk := false
    getNeighbors := fun _ _ => []
    computedQueryEmbedding := [1]
    similaritySearch := fun _ _ => []
    anchorEdgesMeta := fun _ _ => []
    anchorEdges := fun _ _ => []
    enqueueJobId := "job-1" }

/-- A healthy query environment: one vector hit `"c1"` that is already
connected to the anchor with 5 anchors and confidence 0.9 — the
reinforcement gate filters it out, so nothing is enqueued. -/
def envGateFiltered : QueryEnv :=
  { fetchProduct := fun s => if s = "p1" then some productP else none
    incrementOk := true
    getNeighbors := fun _ _ => []
    computedQueryEmbedding := [1]
    similaritySearch := fun _ _ => [⟨"c1", some (1/2)⟩]
    anchorEdgesMeta := fun _ _ => [("c1", ⟨5, 9/10⟩)]
    anchorEdges := fun _ _ => []
    enqueueJobId := "job-1" }

/-- Twelve pairwise-distinct vector rows that include the anchor `"p1"`. -/
def rows12 : List SearchRow :=
  [⟨"c01", some 1⟩, ⟨"c02", some 1⟩, ⟨"c03", some 1⟩, ⟨"c04", some 1⟩,
   ⟨"p1", some 1⟩, ⟨"c05", some 1⟩, ⟨"c06", some 1⟩, ⟨"c07", some 1⟩,
   ⟨"c08", some 1⟩, ⟨"c09", some 1⟩, ⟨"c10", some 1⟩, ⟨"c11", some 1⟩]

/-- A query environment with no graph edges and twelve vector candidates
including the anchor itself. -/
def envFastPath : QueryEnv :=
  { fetchProduct := fun s => if s = "p1" then some productP else none
    incrementOk := true
    getNeighbors := fun _ _ => []
    computedQueryEmbedding := [1]
    similaritySearch := fun _ _ => rows12
    anchorEdgesMeta := fun _ _ => []
    anchorEdges := fun _ _ => []
    enqueueJobId := "job-1" }

/-- A worker environment whose single LLM call fails. -/
def envLlmFail : WorkerEnv :=
  { fetchProduct := fun s => if s = "p1" then some productP else none
    fetchProducts := fun ids => if ids.isEmpty then [] else [⟨"c1", "d", none⟩]
    llmResult := Except.error "boom"
    jobId := some "job-1"
    now := "t1" }

/-- An `AsyncConfig` with an API key and the default gate settings. -/
def cfgWithKey : AsyncConfig := ⟨some "sk-test", true, 5, 7/10⟩

/-! ## Theorems -/

/-- `ratMin` is Mathlib's `min`. -/
theorem ratMin_eq (a b : ℚ) : ratMin a b = min a b := (min_def a b).symm

/-- `ratPow` is monoid exponentiation. -/
theorem ratPow_eq (a : ℚ) (n : ℕ) : ratPow a n = a ^ n := by
  induction n with
  | zero => rfl
  | succ n ih => rw [ratPow, ih, pow_succ]

/-- `round3` agrees with Mathlib's `round`. -/
theorem round3_eq (x : ℚ) : round3 x = ((round (x * 1000) : ℤ) : ℚ) / 1000 := by
  rw [round3, round_eq, Rat.floor_def]

/-- `pyCharsLt` is asymmetric. -/
theorem pyCharsLt_asymm : ∀ (x y : List Char),
    pyCharsLt x y = true → pyCharsLt y x = false
  | [], [] => by simp [pyCharsLt]
  | [], _ :: _ => fun _ => by simp [pyCharsLt]
  | _ :: _, [] => by simp [pyCharsLt]
  | a :: as, b :: bs => fun h => by
      simp only [pyCharsLt] at h ⊢
      by_cases h1 : a.toNat < b.toNat
      · have h2 : ¬ b.toNat < a.toNat := by omega
        simp [h1, h2]
      · by_cases h2 : b.toNat < a.toNat
        · simp [h1, h2] at h
        · simp [h1, h2] at h ⊢
          exact pyCharsLt_asymm as bs h

/-- Mutually non-less code-point sequences are equal. -/
theorem pyCharsLt_antisymm : ∀ (x y : List Char),
    pyCharsLt x y = false → pyCharsLt y x = false → x = y
  | [], [] => fun _ _ => rfl
  | [], _ :: _ => fun h1 _ => by simp [pyCharsLt] at h1
  | _ :: _, [] => fun _ h2 => by simp [pyCharsLt] at h2
  | a :: as, b :: bs => fun h1 h2 => by
      simp only [pyCharsLt] at h1 h2
      by_cases hab : a.toNat < b.toNat
      · simp [hab] at h1
      · by_cases hba : b.toNat < a.toNat
        · simp [hba] at h2
        · have hnat : a.toNat = b.toNat := by omega
          have hchar : a = b := Char.ext (UInt32.ext hnat)
          subst hchar
          simp [hab, hba] at h1 h2
          rw [pyCharsLt_antisymm as bs h1 h2]

/-- Python string `<` is asymmetric. -/
theorem pyStrLt_asymm (a b : String) (h : pyStrLt a b = true) :
    pyStrLt b a = false :=
  pyCharsLt_asymm a.data b.data h

/-- Mutually non-less strings are equal. -/
theorem pyStrLt_antisymm (a b : String) (h1 : pyStrLt a b = false)
    (h2 : pyStrLt b a = false) : a = b := by
  cases a with
  | mk da =>
      cases b with
      | mk db => exact congrArg String.mk (pyCharsLt_antisymm da db h1 h2)

/-- `canonical_pair` is symmetric in its arguments. -/
theorem canonical_pair_comm (a b : String) :
    canonical_pair a b = canonical_pair b a := by
  unfold canonical_pair pyStrLe
  cases hab : pyStrLt a b with
  | true =>
      have hba := pyStrLt_asymm a b hab
      simp [hab, hba]
  | false =>
      cases hba : pyStrLt b a with
      | true => simp [hab, hba]
      | false =>
          have heq := pyStrLt_antisymm a b hab hba
          subst heq
          simp

set_option maxRecDepth 100000 in
/-- C2 counterexample: on raw (non-canonicalized) arguments the edge id is
NOT invariant under endpoint swap — the two hash inputs differ, and so do
the digests. -/
theorem compute_edge_id_not_swap_invariant :
    compute_edge_id "SIMILAR_TO" "a" "b"
      ≠ compute_edge_id "SIMILAR_TO" "b" "a" := by
  decide

/-- C2 amended: `canonical_pair` is symmetric, and `compute_edge_id` applied
to the canonically ordered pair — the only way the pipeline ever calls it —
is invariant under endpoint swap. -/
theorem compute_edge_id_swap_invariant_after_canonicalization
    (edge_type a b : String) :
    canonical_pair a b = canonical_pair b a ∧
    compute_edge_id edge_type (canonical_pair a b).1 (canonical_pair a b).2
      = compute_edge_id edge_type (canonical_pair b a).1 (canonical_pair b a).2 := by
  refine ⟨canonical_pair_comm a b, ?_⟩
  rw [canonical_pair_comm]

/-- C10 counterexample: the two `canonical_pair` implementations disagree
already on `("A", "a")` — `identity.py` normalizes to `("a", "a")` while
the materializer's version keeps the raw `("A", "a")`. -/
theorem canonical_pair_implementations_disagree :
    Identity.canonical_pair "A" "a" ≠ canonical_pair "A" "a" := by
  decide

/-- C10 amended: on ids that are already normalized (fixed points of
`normalize_id`), the two implementations coincide; on raw ids they need
not (see the counterexample). -/
theorem canonical_pair_agree_on_normalized (a b : String)
    (ha : normalize_id a = a) (hb : normalize_id b = b) :
    Identity.canonical_pair a b = canonical_pair a b := by
  unfold Identity.canonical_pair canonical_pair pyStrLe
  rw [ha, hb]
  cases hab : pyStrLt a b with
  | true =>
      have hba := pyStrLt_asymm a b hab
      simp [hab, hba]
  | false =>
      cases hba : pyStrLt b a with
      | true => simp [hab, hba]
      | false =>
          have heq := pyStrLt_antisymm a b hab hba
          subst heq
          simp

/-- `canonical_pair_agree_on_normalized` at the already-normalized pair
`("a", "b")`. -/
theorem canonical_pair_agree_on_normalized_witness :
    normalize_id "a" = "a" ∧ normalize_id "b" = "b" ∧
    Identity.canonical_pair "a" "b" = canonical_pair "a" "b" :=
  ⟨by decide, by decide,
   canonical_pair_agree_on_normalized "a" "b" (by decide) (by decide)⟩

/-- `round3` is monotone. -/
theorem round3_mono {x y : ℚ} (h : x ≤ y) : round3 x ≤ round3 y := by
  rw [round3_eq, round3_eq]
  have hr : (round (x * 1000) : ℤ) ≤ round (y * 1000) := by
    rw [round_eq, round_eq]
    exact Int.floor_le_floor (by linarith)
  have hq : ((round (x * 1000) : ℤ) : ℚ) ≤ ((round (y * 1000) : ℤ) : ℚ) := by
    exact_mod_cast hr
  linarith

/-- `round3` of a nonnegative rational is nonnegative. -/
theorem round3_nonneg {x : ℚ} (hx : 0 ≤ x) : 0 ≤ round3 x := by
  have h := round3_mono hx
  have h0 : round3 0 = 0 := by
    rw [round3_eq, zero_mul, round_zero]
    norm_num
  linarith

/-- The raw confidence body is monotone in the anchor count. -/
theorem confBody_mono {m m' : ℕ} (h : m ≤ m') :
    11/20 + (1 - 11/20) * (1 - ratPow (1 - 3/20) m)
      ≤ 11/20 + (1 - 11/20) * (1 - ratPow (1 - 3/20) m') := by
  rw [ratPow_eq, ratPow_eq]
  have hpow : ((1:ℚ) - 3/20) ^ m' ≤ (1 - 3/20) ^ m :=
    pow_le_pow_of_le_one (by norm_num) (by norm_num) h
  nlinarith

/-- The raw confidence body is nonnegative. -/
theorem confBody_nonneg (m : ℕ) :
    0 ≤ 11/20 + (1 - 11/20) * (1 - ratPow (1 - 3/20) m) := by
  rw [ratPow_eq]
  have h1 : ((1:ℚ) - 3/20) ^ m ≤ 1 := pow_le_one₀ (by norm_num) (by norm_num)
  nlinarith

set_option maxRecDepth 100000 in
/-- C8 counterexample: `confidence_from_anchors` is NOT strictly increasing
— at `n = 14` it reaches the cap, so the step to `n = 15` does not grow. -/
theorem confidence_not_strictly_increasing :
    ¬ confidence_from_anchors (14 + 1) > confidence_from_anchors 14 := by
  with_unfolding_all decide

set_option maxRecDepth 100000 in
/-- C8 amended: `confidence_from_anchors` is non-decreasing, always within
`[0, 0.95]`, zero at zero, and from `n = 14` on it sits exactly at the cap
(the reason strictness fails). -/
theorem confidence_from_anchors_monotone_bounded :
    (∀ n : ℤ, 0 ≤ n →
      confidence_from_anchors n ≤ confidence_from_anchors (n + 1)) ∧
    (∀ n : ℤ, 0 ≤ confidence_from_anchors n ∧
      confidence_from_anchors n ≤ 19/20) ∧
    confidence_from_anchors 0 = 0 ∧
    (∀ n : ℤ, 14 ≤ n → confidence_from_anchors n = 19/20) := by
  have hnonneg : ∀ n : ℤ, 0 ≤ confidence_from_anchors n := by
    intro n
    unfold confidence_from_anchors confidence_from_anchors_gen
    split
    · exact le_refl 0
    · rw [ratMin_eq]
      exact le_min (by norm_num) (round3_nonneg (confBody_nonneg _))
  refine ⟨?_, ?_, ?_, ?_⟩
  · intro n hn
    by_cases h0 : n ≤ 0
    · have hz : n = 0 := by omega
      subst hz
      have h1 : confidence_from_anchors 0 = 0 := by
        unfold confidence_from_anchors confidence_from_anchors_gen
        norm_num
      rw [h1]
      exact hnonneg 1
    · unfold confidence_from_anchors confidence_from_anchors_gen
      rw [if_neg h0, if_neg (by omega)]
      rw [ratMin_eq, ratMin_eq]
      exact min_le_min (le_refl _)
        (round3_mono (confBody_mono (by omega)))
  · intro n
    refine ⟨hnonneg n, ?_⟩
    unfold confidence_from_anchors confidence_from_anchors_gen
    split
    · norm_num
    · rw [ratMin_eq]
      exact min_le_left _ _
  · unfold confidence_from_anchors confidence_from_anchors_gen
    norm_num
  · intro n hn
    unfold confidence_from_anchors confidence_from_anchors_gen
    rw [if_neg (by omega), ratMin_eq]
    apply min_eq_left
    have h14 : (19/20 : ℚ)
        ≤ round3 (11/20 + (1 - 11/20) * (1 - ratPow (1 - 3/20) 14)) := by
      with_unfolding_all decide
    have hmono := round3_mono (confBody_mono
      (show 14 ≤ n.toNat by omega))
    linarith

/-- `confidence_from_anchors_monotone_bounded` at `n = 3` and `n = 20`. -/
theorem confidence_from_anchors_monotone_bounded_witness :
    (0:ℤ) ≤ 3 ∧
    confidence_from_anchors 3 ≤ confidence_from_anchors (3 + 1) ∧
    (14:ℤ) ≤ 20 ∧ confidence_from_anchors 20 = 19/20 :=
  ⟨by decide,
   confidence_from_anchors_monotone_bounded.1 3 (by decide),
   by decide,
   confidence_from_anchors_monotone_bounded.2.2.2 20 (by decide)⟩

/-- The anchor that triggered a materialization is always recorded in the
produced `anchors_seen`. -/
theorem mem_anchors_materialize (patch : Patch) (anchor_id : String)
    (e : Option Edge) (ck jid : Option String) (now : String) :
    anchor_id ∈ (materialize patch anchor_id e ck jid now).anchors_seen := by
  cases e with
  | none => simp [materialize]
  | some ex =>
      by_cases h : anchor_id ∈ ex.anchors_seen <;>
        simp [materialize, h]

/-- Reinforcing from an anchor the edge has already seen leaves
`anchors_seen` unchanged. -/
theorem anchors_materialize_of_mem (patch : Patch) (anchor_id : String)
    (ex : Edge) (ck jid : Option String) (now : String)
    (hmem : anchor_id ∈ ex.anchors_seen) :
    (materialize patch anchor_id (some ex) ck jid now).anchors_seen
      = ex.anchors_seen := by
  simp [materialize, hmem]

/-- The produced confidence is always the confidence of the produced
anchor count. -/
theorem materialize_confidence (patch : Patch) (anchor_id : String)
    (e : Option Edge) (ck jid : Option String) (now : String) :
    (materialize patch anchor_id e ck jid now).confidence_0_to_1
      = confidence_from_anchors
          (((materialize patch anchor_id e ck jid now).anchors_seen.length : ℤ)) := by
  cases e <;> simp [materialize]

/-- C1: materialization is idempotent per anchor — re-materializing the same
patch from the same anchor against the state just produced changes neither
`anchors_seen` nor the confidence; and in the worker, a patch hitting an
existing edge whose `anchors_seen` already contains the anchor increments
`edges_noop_existing` and leaves `edges_reinforced` unchanged. -/
theorem materialize_idempotent_per_anchor
    (patch : Patch) (anchor_id : String) (e : Option Edge)
    (ck ck' jid jid' : Option String) (now now' : String) :
    ((materialize patch anchor_id
        (some (materialize patch anchor_id e ck jid now)) ck' jid' now').anchors_seen
      = (materialize patch anchor_id e ck jid now).anchors_seen ∧
     (materialize patch anchor_id
        (some (materialize patch anchor_id e ck jid now)) ck' jid' now').confidence_0_to_1
      = (materialize patch anchor_id e ck jid now).confidence_0_to_1) ∧
    (∀ (st : List (String × Edge)) (t : Tally) (ex : Edge),
      storeGet st (compute_edge_id patch.edge_type
          (canonical_pair patch.from_id patch.to_id).1
          (canonical_pair patch.from_id patch.to_id).2) = some ex →
      anchor_id ∈ ex.anchors_seen →
      (processPatch anchor_id jid' now' (st, t) patch).2.edges_noop_existing
        = t.edges_noop_existing + 1 ∧
      (processPatch anchor_id jid' now' (st, t) patch).2.edges_reinforced
        = t.edges_reinforced) := by
  constructor
  · have hmem := mem_anchors_materialize patch anchor_id e ck jid now
    have hanch := anchors_materialize_of_mem patch anchor_id
      (materialize patch anchor_id e ck jid now) ck' jid' now' hmem
    refine ⟨hanch, ?_⟩
    rw [materialize_confidence patch anchor_id
          (some (materialize patch anchor_id e ck jid now)) ck' jid' now',
        materialize_confidence patch anchor_id e ck jid now, hanch]
  · intro st t ex hget hmem
    simp only [processPatch, hget, hmem]
    simp

/-- `get_edge` right after an upsert under the same key finds the record. -/
theorem storeGet_key_self (k : String) (e : Edge) (rest : List (String × Edge)) :
    storeGet ((k, e) :: rest) k = some e := by
  simp [storeGet, List.find?]

/-- Concrete instantiation of `materialize_idempotent_per_anchor`'s second
conjunct: a one-edge store whose stored edge already carries the anchor. -/
theorem materialize_idempotent_per_anchor_witness :
    (Adjacent.processPatch "A" none "t2"
        ([(Adjacent.compute_edge_id "SIMILAR_TO" "A" "B",
           Adjacent.materialize ⟨"SIMILAR_TO", "A", "B", none, []⟩ "A" none none none "t1")],
         Adjacent.Tally.zero)
        ⟨"SIMILAR_TO", "A", "B", none, []⟩).2.edges_noop_existing = 0 + 1 ∧
    (Adjacent.processPatch "A" none "t2"
        ([(Adjacent.compute_edge_id "SIMILAR_TO" "A" "B",
           Adjacent.materialize ⟨"SIMILAR_TO", "A", "B", none, []⟩ "A" none none none "t1")],
         Adjacent.Tally.zero)
        ⟨"SIMILAR_TO", "A", "B", none, []⟩).2.edges_reinforced = 0 := by
  have hcp : canonical_pair "A" "B" = ("A", "B") := by decide
  have hget : storeGet
      [(Adjacent.compute_edge_id "SIMILAR_TO" "A" "B",
        Adjacent.materialize ⟨"SIMILAR_TO", "A", "B", none, []⟩ "A" none none none "t1")]
      (compute_edge_id "SIMILAR_TO"
        (canonical_pair "A" "B").1 (canonical_pair "A" "B").2)
      = some (Adjacent.materialize ⟨"SIMILAR_TO", "A", "B", none, []⟩ "A" none none none "t1") := by
    rw [hcp]
    exact storeGet_key_self _ _ _
  exact (materialize_idempotent_per_anchor
      ⟨"SIMILAR_TO", "A", "B", none, []⟩ "A" none none none none none "t1" "t2").2
      [(Adjacent.compute_edge_id "SIMILAR_TO" "A" "B",
        Adjacent.materialize ⟨"SIMILAR_TO", "A", "B", none, []⟩ "A" none none none "t1")]
      Adjacent.Tally.zero
      (Adjacent.materialize ⟨"SIMILAR_TO", "A", "B", none, []⟩ "A" none none none "t1")
      hget (by simp [materialize])

/-- C3: reinforcement monotonicity — materializing against an existing edge
preserves every previously seen anchor (so the anchor count cannot drop) and
copies `created_at` and the three provenance fields forward unchanged. -/
theorem materialize_reinforcement_monotone
    (patch : Patch) (anchor_id : String) (ex : Edge)
    (ck jid : Option String) (now : String) :
    ex.anchors_seen ⊆ (materialize patch anchor_id (some ex) ck jid now).anchors_seen ∧
    ex.anchors_seen.length ≤ (materialize patch anchor_id (some ex) ck jid now).anchors_seen.length ∧
    (materialize patch anchor_id (some ex) ck jid now).created_at = ex.created_at ∧
    (materialize patch anchor_id (some ex) ck jid now).created_kind = ex.created_kind ∧
    (materialize patch anchor_id (some ex) ck jid now).created_under_anchor_id
      = ex.created_under_anchor_id ∧
    (materialize patch anchor_id (some ex) ck jid now).created_in_job_id
      = ex.created_in_job_id := by
  by_cases h : anchor_id ∈ ex.anchors_seen <;>
    simp [materialize, h, List.subset_append_left]

/-- C4: with the reinforcement gate enabled, a vector-fallback candidate
with no existing edge to the anchor is always selected for inference, and a
connected candidate is selected iff its max distinct-anchor count is
strictly below the threshold AND its max confidence is strictly below the
ceiling. -/
theorem candidate_filter_gating (cfg : AsyncConfig)
    (connectedMeta : List (String × EdgeInfo)) (connectedSet : List String)
    (ids : List String) (cid : String)
    (hgate : cfg.allow_endpoint_reinforcement = true) (hmem : cid ∈ ids) :
    (lookupMeta connectedMeta cid = none →
      cid ∈ selectForInference cfg connectedMeta connectedSet ids) ∧
    (∀ info, lookupMeta connectedMeta cid = some info →
      (cid ∈ selectForInference cfg connectedMeta connectedSet ids ↔
        info.max_anchor_count < cfg.endpoint_reinforcement_threshold ∧
        info.max_confidence_0_to_1
          < cfg.endpoint_reinforcement_max_confidence)) := by
  unfold selectForInference
  rw [hgate]
  constructor
  · intro hnone
    rw [if_pos rfl, List.mem_filter]
    exact ⟨hmem, by simp [hnone]⟩
  · intro info hsome
    rw [if_pos rfl, List.mem_filter]
    simp [hsome, hmem]

/-- `candidate_filter_gating` at the default gate settings: connected
candidate `"c1"` sits below both bounds and is re-offered; `"c2"` has no
edge and is selected. -/
theorem candidate_filter_gating_witness :
    "c1" ∈ selectForInference AsyncConfig.defaults
        [("c1", ⟨1, 1/2⟩)] [] ["c1", "c2"] ∧
    "c2" ∈ selectForInference AsyncConfig.defaults
        [("c1", ⟨1, 1/2⟩)] [] ["c1", "c2"] := by
  constructor
  · exact ((candidate_filter_gating AsyncConfig.defaults
        [("c1", ⟨1, 1/2⟩)] [] ["c1", "c2"] "c1" rfl (by decide)).2
        ⟨1, 1/2⟩ (by with_unfolding_all decide)).mpr
      ⟨by decide, by with_unfolding_all decide⟩
  · exact (candidate_filter_gating AsyncConfig.defaults
        [("c1", ⟨1, 1/2⟩)] [] ["c1", "c2"] "c2" rfl (by decide)).1
      (by with_unfolding_all decide)

/-- C5 counterexample: the anchor exists, the counter increment raises, and
`query` does NOT complete — the exception escapes as an error instead of a
returned recommendation result. -/
theorem increment_failure_aborts_query_counterexample :
    (envIncrementFail.fetchProduct "p1").isSome = true ∧
    query envIncrementFail AsyncConfig.defaults "p1" 10 false
      = Except.error QueryError.incrementFailed := by
  exact ⟨rfl, rfl⟩

/-- C5 amended: the query-counter increment is not guarded — whenever the
anchor exists and the increment operation fails, `query` aborts with that
failure rather than returning the recommendation result. -/
theorem increment_failure_aborts_query (env : QueryEnv) (cfg : AsyncConfig)
    (product_id : String) (top_k : ℤ) (skip_inference : Bool) (p : Product)
    (hanchor : env.fetchProduct product_id = some p)
    (hfail : env.incrementOk = false) :
    query env cfg product_id top_k skip_inference
      = Except.error QueryError.incrementFailed := by
  unfold query
  rw [hanchor, hfail]
  rfl

/-- `increment_failure_aborts_query` at the concrete failing environment. -/
theorem increment_failure_aborts_query_witness :
    envIncrementFail.fetchProduct "p1" = some productP ∧
    envIncrementFail.incrementOk = false ∧
    query envIncrementFail AsyncConfig.defaults "p1" 5 true
      = Except.error QueryError.incrementFailed :=
  ⟨rfl, rfl,
   increment_failure_aborts_query envIncrementFail AsyncConfig.defaults
     "p1" 5 true productP rfl rfl⟩

/-- C6: when the single LLM call of a job fails, `infer_edges` returns a
structured error result with zero created and zero reinforced edges, and
the edge store is exactly as before — no partial writes. -/
theorem infer_edges_llm_failure_atomic (env : WorkerEnv) (cfg : AsyncConfig)
    (anchor_id : String) (candidate_ids : List String)
    (store : List (String × Edge)) (p : Product) (msg : String)
    (hkey : optTruthy cfg.openai_api_key = true)
    (hanchor : env.fetchProduct anchor_id = some p)
    (hcands : (env.fetchProducts candidate_ids).isEmpty = false)
    (hllm : env.llmResult = Except.error msg) :
    (infer_edges env cfg anchor_id candidate_ids store).1
      = ⟨anchor_id, 0, 0, 0, 0, 0, some ("LLM inference failed: " ++ msg)⟩ ∧
    (infer_edges env cfg anchor_id candidate_ids store).2 = store := by
  unfold infer_edges
  rw [hkey, hanchor, hcands, hllm]
  exact ⟨rfl, rfl⟩

/-- `infer_edges_llm_failure_atomic` at the concrete failing environment. -/
theorem infer_edges_llm_failure_atomic_witness :
    (infer_edges envLlmFail cfgWithKey "p1" ["c1"] []).1
      = ⟨"p1", 0, 0, 0, 0, 0, some ("LLM inference failed: " ++ "boom")⟩ ∧
    (infer_edges envLlmFail cfgWithKey "p1" ["c1"] []).2 = [] :=
  infer_edges_llm_failure_atomic envLlmFail cfgWithKey "p1" ["c1"] []
    productP "boom" rfl rfl rfl rfl

/-- Behaviour of the vector-result loop: starting from at most `top_k`
recommendations, it appends a block of vector-sourced recommendations whose
ids were not yet known, in lockstep with `vector_candidates`, and the block
size is the smaller of the remaining capacity and the number of fresh
rows. -/
theorem vectorFold_spec (top_k : ℤ) (rows : List SearchRow) :
    ∀ (recs : List Recommendation) (vc ex : List String),
      (rows.map SearchRow.id).Nodup → ((recs.length : ℤ) ≤ top_k) →
      ∃ added : List Recommendation,
        (rows.foldl (vectorStep top_k) ⟨recs, vc, ex⟩).recommendations
          = recs ++ added ∧
        (rows.foldl (vectorStep top_k) ⟨recs, vc, ex⟩).vector_candidates
          = vc ++ added.map Recommendation.product_id ∧
        (∀ r ∈ added, r.source = "vector" ∧ r.product_id ∉ ex) ∧
        added.length
          = min (top_k - (recs.length : ℤ)).toNat
              ((rows.filter (fun row => decide (row.id ∉ ex))).length) := by
  induction rows with
  | nil =>
      intro recs vc ex _ _
      exact ⟨[], by simp, by simp, by simp, by simp⟩
  | cons row rest ih =>
      intro recs vc ex hnd hlen
      have hnd' : (rest.map SearchRow.id).Nodup := by
        rw [List.map_cons, List.nodup_cons] at hnd
        exact hnd.2
      have hrowid : row.id ∉ rest.map SearchRow.id := by
        rw [List.map_cons, List.nodup_cons] at hnd
        exact hnd.1
      rw [List.foldl_cons]
      by_cases hid : row.id ∈ ex
      · have hstep : vectorStep top_k ⟨recs, vc, ex⟩ row = ⟨recs, vc, ex⟩ := by
          simp [vectorStep, hid]
        rw [hstep]
        obtain ⟨added, h1, h2, h3, h4⟩ := ih recs vc ex hnd' hlen
        refine ⟨added, h1, h2, h3, ?_⟩
        rw [List.filter_cons_of_neg (by simp [hid])]
        exact h4
      · by_cases hcap : (recs.length : ℤ) < top_k
        · have hstep : vectorStep top_k ⟨recs, vc, ex⟩ row
              = ⟨recs ++ [⟨row.id, none, none, "vector", row.score⟩],
                 vc ++ [row.id], ex ++ [row.id]⟩ := by
            simp [vectorStep, hid, hcap]
          rw [hstep]
          have hlen' : (((recs ++
              [(⟨row.id, none, none, "vector", row.score⟩ :
                Recommendation)]).length : ℤ) ≤ top_k) := by
            simp only [List.length_append, List.length_cons, List.length_nil]
            push_cast
            omega
          obtain ⟨added, h1, h2, h3, h4⟩ :=
            ih (recs ++ [⟨row.id, none, none, "vector", row.score⟩])
              (vc ++ [row.id]) (ex ++ [row.id]) hnd' hlen'
          refine ⟨⟨row.id, none, none, "vector", row.score⟩ :: added,
            ?_, ?_, ?_, ?_⟩
          · rw [h1, List.append_assoc]
            rfl
          · rw [h2, List.append_assoc]
            rfl
          · intro r hr
            rcases List.mem_cons.mp hr with hr | hr
            · subst hr
              exact ⟨rfl, hid⟩
            · obtain ⟨hsrc, hnot⟩ := h3 r hr
              refine ⟨hsrc, fun hcontra => hnot ?_⟩
              rw [List.mem_append]
              exact Or.inl hcontra
          · have hfeq : rest.filter
                  (fun r => decide (r.id ∉ ex ++ [row.id]))
                = rest.filter (fun r => decide (r.id ∉ ex)) := by
              apply List.filter_congr
              intro r hr
              have hne : r.id ≠ row.id := fun hcontra =>
                hrowid (by rw [← hcontra]; exact List.mem_map_of_mem _ hr)
              simp [List.mem_append, hne]
            rw [hfeq] at h4
            rw [List.filter_cons_of_pos (by simp [hid])]
            simp only [List.length_append, List.length_cons, List.length_nil]
              at h4 ⊢
            omega
        · have hstep : vectorStep top_k ⟨recs, vc, ex⟩ row = ⟨recs, vc, ex⟩ := by
            simp [vectorStep, hid, hcap]
          rw [hstep]
          obtain ⟨added, h1, h2, h3, h4⟩ := ih recs vc ex hnd' hlen
          refine ⟨added, h1, h2, h3, ?_⟩
          rw [List.filter_cons_of_pos (by simp [hid])]
          simp only [List.length_cons]
          omega

/-- C7: with no existing graph edges, `top_k = 10`, and a vector index
response of 12 pairwise-distinct candidates that include the anchor itself,
`query` returns exactly 10 vector-sourced recommendations, none of them the
anchor, with `from_graph = 0` and `from_vector = 10`. -/
theorem fast_path_vector_composition (env : QueryEnv) (cfg : AsyncConfig)
    (pid : String) (skip_inference : Bool) (anchor : Product) (emb : List ℚ)
    (rows : List SearchRow)
    (hanchor : env.fetchProduct pid = some anchor)
    (hinc : env.incrementOk = true)
    (hneigh : env.getNeighbors pid 10 = [])
    (hemb : getEmbedding env anchor = Except.ok emb)
    (hsearch : env.similaritySearch emb 11 = rows)
    (hlen : rows.length = 12)
    (hnd : (rows.map SearchRow.id).Nodup)
    (hmem : pid ∈ rows.map SearchRow.id) :
    ∃ r : QueryResult, query env cfg pid 10 skip_inference = Except.ok r ∧
      r.recommendations.length = 10 ∧
      (∀ rec ∈ r.recommendations,
        rec.source = "vector" ∧ rec.product_id ≠ pid) ∧
      r.from_graph = 0 ∧ r.from_vector = 10 := by
  -- the fresh-row count: exactly 11 of the 12 rows carry an id other than
  -- the anchor's
  have hfresh : (rows.filter
      (fun row => decide (row.id ∉ [pid]))).length = 11 := by
    obtain ⟨r0, hr0mem, hr0id⟩ := List.mem_map.mp hmem
    obtain ⟨s, t, rfl⟩ := List.append_of_mem hr0mem
    rw [List.map_append, List.map_cons] at hnd
    have hmid := List.nodup_middle.mp hnd
    rw [List.nodup_cons] at hmid
    have hnotmem : r0.id ∉ s.map SearchRow.id ++ t.map SearchRow.id := hmid.1
    rw [List.mem_append] at hnotmem
    push_neg at hnotmem
    have hs : s.filter (fun row => decide (row.id ∉ [pid])) = s := by
      apply List.filter_eq_self.mpr
      intro r hr
      have : r.id ≠ pid := fun hcontra =>
        hnotmem.1 (by rw [hr0id, ← hcontra]; exact List.mem_map_of_mem _ hr)
      simp [this]
    have ht : t.filter (fun row => decide (row.id ∉ [pid])) = t := by
      apply List.filter_eq_self.mpr
      intro r hr
      have : r.id ≠ pid := fun hcontra =>
        hnotmem.2 (by rw [hr0id, ← hcontra]; exact List.mem_map_of_mem _ hr)
      simp [this]
    rw [List.filter_append, hs,
      List.filter_cons_of_neg (by simp [hr0id]), ht, List.length_append]
    simp only [List.length_append, List.length_cons] at hlen
    omega
  obtain ⟨added, h1, h2, h3, h4⟩ :=
    vectorFold_spec 10 rows [] [] [pid] hnd (by norm_num)
  rw [hfresh] at h4
  simp only [List.length_nil, Nat.cast_zero, List.nil_append] at h1 h2 h4
  norm_num at h4
  unfold query
  rw [hanchor, hinc]
  simp only [Bool.not_true, Bool.false_eq_true, if_false, hneigh,
    List.map_nil, List.length_nil, Nat.cast_zero, List.nil_append]
  rw [if_pos (by norm_num : (10:ℤ) - 0 > 0), hemb]
  simp only [Except.map]
  rw [show (10:ℤ) + 0 + 1 = 11 by norm_num, hsearch]
  refine ⟨_, rfl, ?_, ?_, rfl, ?_⟩
  · rw [h1]
    show added.length = 10
    omega
  · intro rec hrec
    rw [h1] at hrec
    obtain ⟨hsrc, hnot⟩ := h3 rec hrec
    exact ⟨hsrc, by simpa using hnot⟩
  · show (rows.foldl (vectorStep 10)
        ⟨[], [], [pid]⟩).vector_candidates.length = 10
    rw [h2, List.length_map]
    omega

/-- `fast_path_vector_composition` at the concrete 12-row environment. -/
theorem fast_path_vector_composition_witness :
    (rows12.map SearchRow.id).Nodup ∧ "p1" ∈ rows12.map SearchRow.id ∧
    (∃ r : QueryResult,
      query envFastPath AsyncConfig.defaults "p1" 10 false = Except.ok r ∧
      r.recommendations.length = 10 ∧
      (∀ rec ∈ r.recommendations,
        rec.source = "vector" ∧ rec.product_id ≠ "p1") ∧
      r.from_graph = 0 ∧ r.from_vector = 10) :=
  ⟨by decide, by decide,
   fast_path_vector_composition envFastPath AsyncConfig.defaults "p1" false
     productP [1] rows12 rfl rfl rfl rfl rfl rfl (by decide) (by decide)⟩

set_option maxRecDepth 100000 in
/-- C9 counterexample: a query whose single vector candidate is filtered
out by the reinforcement gate returns `inference_status = "complete"` with
`from_vector = 1` — the vector fallback WAS used. -/
theorem complete_status_with_vector_fallback :
    (query envGateFiltered cfgWithKey "p1" 1 false).toOption
      = some ⟨"p1", [⟨"c1", none, none, "vector", some (1/2)⟩],
          0, 1, "complete", none⟩ := by
  with_unfolding_all decide

/-- C9 amended: `inference_status = "complete"` does imply that nothing was
enqueued (`job_id = none`), but not that the vector fallback was unused —
`from_vector` can be positive when every fallback candidate was filtered
out. -/
theorem complete_status_means_nothing_enqueued (env : QueryEnv)
    (cfg : AsyncConfig) (product_id : String) (top_k : ℤ)
    (skip_inference : Bool) (r : QueryResult)
    (hok : query env cfg product_id top_k skip_inference = Except.ok r)
    (hst : r.inference_status = "complete") : r.job_id = none := by
  have hcases : ∀ (recs : List Recommendation),
      scheduleInference env cfg product_id skip_inference recs
          = ("enqueued", some env.enqueueJobId) ∨
      scheduleInference env cfg product_id skip_inference recs
          = ("complete", none) ∨
      scheduleInference env cfg product_id skip_inference recs
          = ("skipped", none) := by
    intro recs
    unfold scheduleInference scheduleCandidates
    split
    · split
      · split
        · exact Or.inl rfl
        · exact Or.inr (Or.inl rfl)
      · exact Or.inr (Or.inl rfl)
    · exact Or.inr (Or.inr rfl)
  unfold query at hok
  split at hok
  · cases hok
  · split at hok
    · cases hok
    · simp only [] at hok
      split at hok
      · cases hok
      · rename_i st heq
        simp only [Except.ok.injEq] at hok
        subst hok
        replace hst : (scheduleInference env cfg product_id skip_inference
            st.recommendations).1 = "complete" := hst
        show (scheduleInference env cfg product_id skip_inference
            st.recommendations).2 = none
        rcases hcases st.recommendations with hc | hc | hc
        · rw [hc] at hst
          exact absurd hst (by simp)
        · rw [hc]
        · rw [hc] at hst
          exact absurd hst (by simp)

set_option maxRecDepth 100000 in
/-- `complete_status_means_nothing_enqueued` at the gate-filtered
environment. -/
theorem complete_status_means_nothing_enqueued_witness :
    (⟨"p1", [⟨"c1", none, none, "vector", some (1/2)⟩],
       0, 1, "complete", none⟩ : QueryResult).job_id = none :=
  complete_status_means_nothing_enqueued envGateFiltered cfgWithKey
    "p1" 1 false _ (by with_unfolding_all decide) rfl

end Adjacent
